import Mathlib

/-!
Verification of the image-composition engine of hk-minisite-v5
(`src/main.py`), shallowly embedded in Lean 4.

The engine is `add_overlay(image_data)` (main.py lines 37-105): inside a
broad `try`, it checks that the logo asset file exists (returning the
input bytes unchanged if not), decodes the input bytes, converts to RGBA,
opens and resizes the logo, draws a semi-transparent rectangle, draws the
caption text (falling back to the default font if `ImageFont.truetype`
raises `IOError`), pastes the resized logo, and re-encodes as PNG; the
`except Exception` handler returns the original input bytes.

The embedding models byte strings as either a valid encoding of an image
or undecodable garbage; an image carries its width, height, mode and a
log of the drawing operations applied to it.  The filesystem / runtime
world (`World`) records whether the logo file exists, whether it opens,
the logo's pixel dimensions, whether the truetype font loads, and the
font-metric function behind `draw.textbbox`.  Python floor division `//`
on non-negative integers is `Nat` division.  (The one float computation,
`int(logo.height * (logo_width / logo.width))`, is modelled with exact
natural-number division; its IEEE-754 behaviour is outside this
embedding.)
-/

/-- Image modes as produced by PIL `convert` (only the two that occur). -/
inductive PilMode where
  | RGB
  | RGBA
deriving DecidableEq, Repr

/-- Encoded-image formats that occur in the system. -/
inductive ImgFormat where
  | png
  | jpeg
deriving DecidableEq, Repr

/-- The logo asset as opened from disk: its pixel dimensions plus an
identifier for its pixel content. -/
structure AssetImage where
  width : Nat
  height : Nat
  assetId : Nat
deriving DecidableEq, Repr

/-- The font chosen for the caption: either `ImageFont.truetype("arial.ttf",
size)` or `ImageFont.load_default()` (main.py lines 67-70). -/
inductive FontChoice where
  | truetype (size : Nat)
  | default
deriving DecidableEq, Repr

/-- One drawing operation applied to the base image, recording its exact
arguments as computed by `add_overlay`:
`draw.rectangle` (line 83), `draw.text` (line 90), `image.paste` of the
resized logo (line 97, with target width/height from the resize at line
60). -/
inductive DrawOp where
  | rectangle (x0 y0 x1 y1 : Int) (r g b a : Nat)
  | text (x y : Int) (s : String) (font : FontChoice) (r g b a : Nat)
  | paste (asset : AssetImage) (w h : Nat) (x y : Int)
deriving DecidableEq, Repr

/-- The kind of a drawing operation, for stating ordering properties. -/
inductive OpKind where
  | rectangle
  | text
  | paste
deriving DecidableEq, Repr

def DrawOp.kind : DrawOp → OpKind
  | .rectangle _ _ _ _ _ _ _ _ => .rectangle
  | .text _ _ _ _ _ _ _ _ => .text
  | .paste _ _ _ _ _ => .paste

/-- A decoded raster image: canvas dimensions, channel mode, an identifier
for the base pixel content, and the log of drawing operations applied on
top of it.  Drawing and pasting never change `width`/`height`. -/
structure PilImage where
  width : Nat
  height : Nat
  mode : PilMode
  baseId : Nat
  ops : List DrawOp
deriving DecidableEq, Repr

/-- A byte string handled by the engine: either a valid encoding of an
image in some format, or bytes that PIL cannot decode. -/
inductive Bytes where
  | encoded (fmt : ImgFormat) (img : PilImage)
  | garbage (n : Nat)
deriving DecidableEq, Repr

/-- `Image.open(io.BytesIO(image_data))` (main.py line 54): succeeds on a
valid encoding, raises (modelled as `none`) on anything else. -/
def decodeImage : Bytes → Option PilImage
  | .encoded _ img => some img
  | .garbage _ => none

/-- `.convert("RGBA")` (main.py line 54): same canvas and content, mode
forced to RGBA. -/
def convertRGBA (img : PilImage) : PilImage :=
  { img with mode := .RGBA }

/-- Append a drawing operation to an image's log; canvas size and mode are
untouched, matching PIL draw/paste on an existing canvas. -/
def applyOp (img : PilImage) (op : DrawOp) : PilImage :=
  { img with ops := img.ops ++ [op] }

/-- `image.save(img_byte_arr, format='PNG')` (main.py line 101): the bytes
are a PNG encoding of the composited image. -/
def savePNG (img : PilImage) : Bytes :=
  .encoded .png img

/-- The caption text literal (main.py line 66). -/
def captionText : String :=
  "HKGCC International Business Summit 2025\nTheme: [Theme Placeholder]\nDate: [Date Placeholder]"

/-- The filesystem and runtime world a single `add_overlay` call observes:
whether the logo file exists (`os.path.exists`, line 51), whether
`Image.open(logo_path)` succeeds (line 55) and what asset it yields,
whether `ImageFont.truetype("arial.ttf", ...)` succeeds (line 68), and
the font-metric function behind `draw.textbbox` (line 75), which returns
a bounding box `(x0, y0, x1, y1)` for a text and font. -/
structure World where
  logoExists : Bool
  logoOpens : Bool
  logoAsset : AssetImage
  fontLoads : Bool
  textbbox : String → FontChoice → Int × Int × Int × Int

/-- The Python exceptions the `try` body of `add_overlay` can raise:
decode failure of the input bytes (line 54), failure to open the logo
file (line 55), and division by zero in the resize arithmetic when the
logo has width 0 (line 59). -/
inductive PyErr where
  | decodeError
  | logoOpenError
  | zeroDivisionError
deriving DecidableEq, Repr

/-- `logo_width = image.width // 6` (main.py line 58), where `img0` is the
converted base image. -/
def logoWidthOf (img0 : PilImage) : Nat :=
  img0.width / 6

/-- `logo_height = int(logo.height * (logo_width / logo.width))` (main.py
line 59), with the float quotient modelled as exact division (the
truncation of a non-negative value is the floor). -/
def logoHeightOf (w : World) (img0 : PilImage) : Nat :=
  w.logoAsset.height * logoWidthOf img0 / w.logoAsset.width

/-- The font used for the caption (main.py lines 67-70):
`ImageFont.truetype("arial.ttf", size=image.width // 25)` when it loads,
`ImageFont.load_default()` on `IOError`. -/
def fontOf (w : World) (img0 : PilImage) : FontChoice :=
  if w.fontLoads then FontChoice.truetype (img0.width / 25)
  else FontChoice.default

/-- The caption geometry (main.py lines 75-79): from the bounding box
`(x0, y0, x1, y1)` of `draw.textbbox((0, 0), text, font=font)`, compute
`(text_width, text_height, text_x, text_y)` with
`text_width = x1 - x0`, `text_height = y1 - y0`,
`text_x = image.width // 20`,
`text_y = image.height - text_height - image.height // 10`. -/
def textGeom (w : World) (img0 : PilImage) : Int × Int × Int × Int :=
  let bbox := w.textbbox captionText (fontOf w img0)
  let text_width : Int := bbox.2.2.1 - bbox.1
  let text_height : Int := bbox.2.2.2 - bbox.2.1
  let text_x : Int := (img0.width / 20 : Nat)
  let text_y : Int := (img0.height : Int) - text_height - ((img0.height / 10 : Nat) : Int)
  (text_width, text_height, text_x, text_y)

/-- The semi-transparent background rectangle behind the caption (main.py
lines 82-87): corners `(text_x - 5, text_y - 5)` and
`(text_x + text_width + 5, text_y + text_height + 5)`, fill
`(255, 255, 255, 180)`. -/
def captionRectOp (w : World) (img0 : PilImage) : DrawOp :=
  let g := textGeom w img0
  .rectangle (g.2.2.1 - 5) (g.2.2.2 - 5) (g.2.2.1 + g.1 + 5) (g.2.2.2 + g.2.1 + 5)
    255 255 255 180

/-- The caption text drawing (main.py line 90): at `(text_x, text_y)`,
fill `(255, 255, 255, 255)`. -/
def captionTextOp (w : World) (img0 : PilImage) : DrawOp :=
  let g := textGeom w img0
  .text g.2.2.1 g.2.2.2 captionText (fontOf w img0) 255 255 255 255

/-- The paste of the resized logo (main.py lines 60, 93-97): target size
`(logo_width, logo_height)`, position
`(image.width - logo_width - image.width // 20,
image.height - logo_height - image.height // 10)`. -/
def logoPasteOp (w : World) (img0 : PilImage) : DrawOp :=
  .paste w.logoAsset (logoWidthOf img0) (logoHeightOf w img0)
    ((img0.width : Int) - (logoWidthOf img0 : Int) - ((img0.width / 20 : Nat) : Int))
    ((img0.height : Int) - (logoHeightOf w img0 : Int) - ((img0.height / 10 : Nat) : Int))

/-- The body of the `try` block of `add_overlay` (main.py lines 39-102),
step by step.  The early `return image_data` when the logo file is absent
(lines 51-53) is a normal return, not an exception; decode failure (line
54), logo-open failure (line 55) and division by zero for a zero-width
logo (line 59) raise.  On success the rectangle, the text and the logo
paste are applied to the RGBA-converted base image in that order and the
result is re-encoded as PNG. -/
def add_overlay_body (w : World) (image_data : Bytes) : Except PyErr Bytes :=
  if w.logoExists = false then
    .ok image_data
  else
    match decodeImage image_data with
    | none => .error .decodeError
    | some i =>
      let image0 := convertRGBA i
      if w.logoOpens = false then .error .logoOpenError
      else if w.logoAsset.width = 0 then .error .zeroDivisionError
      else
        let image1 := applyOp image0 (captionRectOp w image0)
        let image2 := applyOp image1 (captionTextOp w image0)
        let image3 := applyOp image2 (logoPasteOp w image0)
        .ok (savePNG image3)

/-- The fully composited image: the RGBA-converted base with the caption
background rectangle, the caption text and the logo paste applied, in the
order of the success path of `add_overlay_body`. -/
def full_composite (w : World) (img : PilImage) : PilImage :=
  let image0 := convertRGBA img
  applyOp (applyOp (applyOp image0 (captionRectOp w image0)) (captionTextOp w image0))
    (logoPasteOp w image0)

/-- `add_overlay` with its `except Exception` handler made explicit as an
`Except` value: every exception of the body is mapped to a normal return
of the original `image_data` (main.py lines 103-105). -/
def add_overlay_checked (w : World) (image_data : Bytes) : Except PyErr Bytes :=
  match add_overlay_body w image_data with
  | .ok b => .ok b
  | .error _ => .ok image_data

/-- `add_overlay(image_data)` as its caller sees it (main.py lines
37-105): the body's result, with any exception replaced by the original
input bytes. -/
def add_overlay (w : World) (image_data : Bytes) : Bytes :=
  match add_overlay_body w image_data with
  | .ok b => b
  | .error _ => image_data

/-- Whether a byte string is a PNG encoding of an image with an alpha
channel (RGBA mode). -/
def isPNGWithAlpha : Bytes → Bool
  | .encoded .png img => img.mode = PilMode.RGBA
  | _ => false

/-- The kinds of the drawing operations recorded in an encoded image, in
application order; `none` if the bytes do not decode. -/
def opKinds (b : Bytes) : Option (List OpKind) :=
  (decodeImage b).map (fun i => i.ops.map DrawOp.kind)

/-- Whether an encoded image carries at least one text drawing operation
(i.e. a caption was rendered onto it). -/
def hasTextOp (b : Bytes) : Bool :=
  match decodeImage b with
  | some i => i.ops.any (fun op => op.kind = OpKind.text)
  | none => false

/-- The fonts used by the text operations of an image's log, in order. -/
def textFonts (i : PilImage) : List FontChoice :=
  i.ops.filterMap (fun op =>
    match op with
    | .text _ _ _ f _ _ _ _ => some f
    | _ => none)

/-- A concrete world with every resource available: logo exists and
opens as a 30 by 12 asset, the truetype font loads, and a fixed metric
function. -/
def worldAllOk : World :=
  { logoExists := true
    logoOpens := true
    logoAsset := { width := 30, height := 12, assetId := 1 }
    fontLoads := true
    textbbox := fun _ _ => (0, 0, 200, 60) }

/-- A concrete world in which the logo asset file does not exist. -/
def worldNoLogo : World :=
  { worldAllOk with logoExists := false }

/-- A concrete world in which the truetype font fails to load. -/
def worldNoFont : World :=
  { worldAllOk with fontLoads := false }

/-- A concrete valid JPEG input: a 120 by 90 RGB photograph with no
overlay history. -/
def jpegInput : Bytes :=
  .encoded .jpeg { width := 120, height := 90, mode := .RGB, baseId := 7, ops := [] }

/-- A concrete valid PNG input: a 100 by 80 RGB image. -/
def pngInput : Bytes :=
  .encoded .png { width := 100, height := 80, mode := .RGB, baseId := 3, ops := [] }

/-!
The proxy layer (`handle_generate`, main.py lines 121-179).  After the
upstream call succeeds, lines 150-166 locate the first part of
`candidates[0].content.parts` that carries `inlineData`, base64-decode
its `data`, run `add_overlay`, base64-encode the result back, and set
that part's `data` and `mimeType` (to `"image/png"`) in place; the rest
of the JSON structure is returned as-is.  Base64 encoding and decoding
live in the Python standard library, so they are abstracted as arbitrary
functions `enc : Bytes → String` and `dec : String → Bytes`.  Fields of
the JSON objects other than the ones the code touches are collapsed into
opaque `other` components.
-/

/-- The `inlineData` object of a part: base64 `data` and a `mimeType`. -/
structure InlineData where
  data : String
  mimeType : String
deriving DecidableEq, Repr

/-- A part of the upstream response content: optionally an `inlineData`
object, plus any other fields (opaque). -/
structure GPart where
  inlineData : Option InlineData
  other : Nat
deriving DecidableEq, Repr

/-- The `content` object of a candidate: its `parts` list plus any other
fields. -/
structure GContent where
  parts : List GPart
  other : Nat
deriving DecidableEq, Repr

/-- A candidate of the upstream response: optionally a `content` object
(the code reads it with `.get("content", {})`), plus other fields. -/
structure GCandidate where
  content : Option GContent
  other : Nat
deriving DecidableEq, Repr

/-- The upstream JSON response: its `candidates` list plus all other
top-level fields. -/
structure ApiResponse where
  candidates : List GCandidate
  other : Nat
deriving DecidableEq, Repr

/-- Rewrite one part carrying inline data, exactly as lines 155-166 do:
decode its base64 `data`, run `add_overlay`, re-encode, and force
`mimeType` to `"image/png"`. -/
def rewriteInlinePart (enc : Bytes → String) (dec : String → Bytes)
    (w : World) (d : InlineData) : InlineData :=
  { data := enc (add_overlay w (dec d.data)), mimeType := "image/png" }

/-- The in-place mutation of the part found by
`next((p for p in parts if "inlineData" in p), None)` (line 152), seen as
a list transformation: the first part whose `inlineData` is present is
replaced by its rewritten version; every other part is kept. -/
def rewriteFirstInline (enc : Bytes → String) (dec : String → Bytes)
    (w : World) : List GPart → List GPart
  | [] => []
  | p :: ps =>
    match p.inlineData with
    | some d => { p with inlineData := some (rewriteInlinePart enc dec w d) } :: ps
    | none => p :: rewriteFirstInline enc dec w ps

/-- The response transformation performed by `handle_generate` on a
successful upstream response (main.py lines 150-169), translated from the
source: if `candidates` is non-empty, the parts of `candidates[0]`'s
content (or `[]` when `content` is absent) have their first inline-data
part rewritten in place; otherwise the response is returned untouched. -/
def handle_generate_model (enc : Bytes → String) (dec : String → Bytes)
    (w : World) (resp : ApiResponse) : ApiResponse :=
  match resp.candidates with
  | [] => resp
  | c0 :: rest =>
    match c0.content with
    | none => resp
    | some ct =>
      { resp with
        candidates :=
          { c0 with content := some { ct with parts := rewriteFirstInline enc dec w ct.parts } }
          :: rest }

/-- Written from the spec's words, for comparison with the source-derived
`handle_generate_model`: in `candidates[0].content.parts`, exactly the
first part containing `inlineData` is rewritten in place (its `data`
replaced by the base64 encoding of the composition output and its
`mimeType` set to `"image/png"`); every other part, candidate and field
is relayed unmodified. -/
def handle_generate_specModel (enc : Bytes → String) (dec : String → Bytes)
    (w : World) (resp : ApiResponse) : ApiResponse :=
  match resp.candidates with
  | [] => resp
  | c0 :: rest =>
    match c0.content with
    | none => resp
    | some ct =>
      match ct.parts.findIdx? (fun p => p.inlineData.isSome) with
      | none => resp
      | some i =>
        match ct.parts[i]? with
        | none => resp
        | some p =>
          match p.inlineData with
          | none => resp
          | some d =>
            { resp with
              candidates :=
                { c0 with
                  content := some
                    { ct with
                      parts := ct.parts.set i
                        { p with inlineData := some (rewriteInlinePart enc dec w d) } } }
                :: rest }

/-- Declarative statement, written from the spec's words, of what the
proxy does to the parts list: either no part carries `inlineData` and the
list is unchanged, or the list splits as `pre ++ p :: suf` where no part
of `pre` carries `inlineData`, `p` carries `inlineData d`, and exactly
`p` is replaced by its rewritten version (data re-encoded through
`add_overlay`, MIME type forced to `"image/png"`), all other parts kept. -/
def RewritesExactlyFirstInline (enc : Bytes → String) (dec : String → Bytes)
    (w : World) (ps qs : List GPart) : Prop :=
  ((∀ p ∈ ps, p.inlineData = none) ∧ qs = ps) ∨
  (∃ pre p d suf,
    ps = pre ++ p :: suf ∧
    (∀ q ∈ pre, q.inlineData = none) ∧
    p.inlineData = some d ∧
    qs = pre ++ { p with inlineData := some (rewriteInlinePart enc dec w d) } :: suf)

/-- Declarative statement, from the spec's words, of the whole proxy
rewrite: top-level fields are unchanged; with no candidate, or no content
on the first candidate, the response is relayed untouched; otherwise only
the parts list of the first candidate's content is transformed, exactly
its first inline-data part rewritten, and all other candidates and fields
relayed unmodified. -/
def ProxyRewriteSpec (enc : Bytes → String) (dec : String → Bytes)
    (w : World) (resp out : ApiResponse) : Prop :=
  out.other = resp.other ∧
  (match resp.candidates with
  | [] => out = resp
  | c0 :: rest =>
    match c0.content with
    | none => out = resp
    | some ct =>
      ∃ qs, RewritesExactlyFirstInline enc dec w ct.parts qs ∧
        out.candidates =
          { c0 with content := some { ct with parts := qs } } :: rest)

/-- A concrete world in which the logo file exists but fails to open. -/
def worldLogoUnreadable : World :=
  { worldAllOk with logoOpens := false }

/-- A concrete valid JPEG input: a 64 by 64 RGB image. -/
def jpegSmall : Bytes :=
  .encoded .jpeg { width := 64, height := 64, mode := .RGB, baseId := 11, ops := [] }

/-- The index of the first operation of kind `k` in a kind list. -/
def idxOfKind (k : OpKind) : List OpKind → Option Nat
  | [] => none
  | a :: l => if a = k then some 0 else (idxOfKind k l).map (fun n => n + 1)

/-- Whether, in the operation log encoded in `b`, the logo paste was
applied strictly before the caption text (the order the claim under
scrutiny asserts). -/
def logoAppliedBeforeCaption (b : Bytes) : Bool :=
  match opKinds b with
  | some l =>
    match idxOfKind OpKind.paste l, idxOfKind OpKind.text l with
    | some i, some j => decide (i < j)
    | _, _ => false
  | none => false

/-! ## Helper lemmas -/

lemma add_overlay_of_body_ok {w : World} {d b : Bytes}
    (h : add_overlay_body w d = .ok b) : add_overlay w d = b := by
  simp [add_overlay, h]

lemma add_overlay_of_body_error {w : World} {d : Bytes} {e : PyErr}
    (h : add_overlay_body w d = .error e) : add_overlay w d = d := by
  simp [add_overlay, h]

lemma add_overlay_body_noLogo {w : World} (d : Bytes)
    (h : w.logoExists = false) : add_overlay_body w d = .ok d := by
  simp [add_overlay_body, h]

lemma add_overlay_body_decodeFail {w : World} {d : Bytes}
    (h2 : w.logoExists = true) (h : decodeImage d = none) :
    add_overlay_body w d = .error .decodeError := by
  simp [add_overlay_body, h2, h]

lemma add_overlay_body_logoOpenFail {w : World} {d : Bytes} {img : PilImage}
    (h2 : w.logoExists = true) (h1 : decodeImage d = some img)
    (h : w.logoOpens = false) :
    add_overlay_body w d = .error .logoOpenError := by
  simp [add_overlay_body, h2, h1, h]

lemma add_overlay_body_zeroDiv {w : World} {d : Bytes} {img : PilImage}
    (h2 : w.logoExists = true) (h1 : decodeImage d = some img)
    (h3 : w.logoOpens = true) (h : w.logoAsset.width = 0) :
    add_overlay_body w d = .error .zeroDivisionError := by
  simp [add_overlay_body, h2, h1, h3, h]

lemma add_overlay_body_ok_of_success {w : World} {d : Bytes} {img : PilImage}
    (h1 : decodeImage d = some img) (h2 : w.logoExists = true)
    (h3 : w.logoOpens = true) (h4 : w.logoAsset.width ≠ 0) :
    add_overlay_body w d = .ok (savePNG (full_composite w img)) := by
  simp [add_overlay_body, h1, h2, h3, h4, full_composite]

lemma full_composite_width (w : World) (img : PilImage) :
    (full_composite w img).width = img.width := rfl

lemma full_composite_height (w : World) (img : PilImage) :
    (full_composite w img).height = img.height := rfl

lemma full_composite_mode (w : World) (img : PilImage) :
    (full_composite w img).mode = PilMode.RGBA := rfl

lemma full_composite_ops (w : World) (img : PilImage) :
    (full_composite w img).ops =
      img.ops ++ [captionRectOp w (convertRGBA img),
        captionTextOp w (convertRGBA img), logoPasteOp w (convertRGBA img)] := by
  simp [full_composite, applyOp, convertRGBA]

/-- Exhaustive case analysis of `add_overlay`: either some step failed (or
the logo file was absent) and the original bytes come back, or every step
succeeded and the output is the PNG encoding of the full composite. -/
lemma add_overlay_cases (w : World) (d : Bytes) :
    add_overlay w d = d ∨
    ∃ img, decodeImage d = some img ∧
      add_overlay w d = savePNG (full_composite w img) := by
  by_cases h2 : w.logoExists = true
  · cases h1 : decodeImage d with
    | none => exact Or.inl (add_overlay_of_body_error (add_overlay_body_decodeFail h2 h1))
    | some img =>
      by_cases h3 : w.logoOpens = true
      · by_cases h4 : w.logoAsset.width = 0
        · exact Or.inl (add_overlay_of_body_error (add_overlay_body_zeroDiv h2 h1 h3 h4))
        · exact Or.inr ⟨img, rfl,
            add_overlay_of_body_ok (add_overlay_body_ok_of_success h1 h2 h3 h4)⟩
      · have h3' : w.logoOpens = false := by
          cases hb : w.logoOpens
          · rfl
          · exact absurd hb h3
        exact Or.inl (add_overlay_of_body_error (add_overlay_body_logoOpenFail h2 h1 h3'))
  · have h2' : w.logoExists = false := by
      cases hb : w.logoExists
      · rfl
      · exact absurd hb h2
    exact Or.inl (by simp [add_overlay, add_overlay_body_noLogo d h2'])

lemma rewriteFirstInline_spec (enc : Bytes → String) (dec : String → Bytes)
    (w : World) (ps : List GPart) :
    RewritesExactlyFirstInline enc dec w ps (rewriteFirstInline enc dec w ps) := by
  induction ps with
  | nil => exact Or.inl ⟨by simp, rfl⟩
  | cons p ps ih =>
    cases hp : p.inlineData with
    | some d =>
      exact Or.inr ⟨[], p, d, ps, by simp, by simp, hp,
        by simp [rewriteFirstInline, hp]⟩
    | none =>
      rcases ih with ⟨h1, h2⟩ | ⟨pre, q, d, suf, e1, e2, e3, e4⟩
      · refine Or.inl ⟨?_, ?_⟩
        · intro x hx
          rcases List.mem_cons.mp hx with hx | hx
          · rw [hx]; exact hp
          · exact h1 x hx
        · simp [rewriteFirstInline, hp, h2]
      · refine Or.inr ⟨p :: pre, q, d, suf, by simp [e1], ?_, e3, ?_⟩
        · intro x hx
          rcases List.mem_cons.mp hx with hx | hx
          · rw [hx]; exact hp
          · exact e2 x hx
        · simp [rewriteFirstInline, hp, e4]

/-! ## Claim theorems -/

/-- C1: No exception propagates out of the composition function: for
every input byte sequence (decodable or not) and every filesystem state
(logo present, absent, or unreadable; font loadable or not),
`add_overlay` returns some byte sequence and its exception handler
converts every exception of the body into a normal return. -/
theorem C1_no_exception_propagates (w : World) (image_data : Bytes) :
    ∃ b : Bytes, add_overlay_checked w image_data = Except.ok b ∧
      add_overlay w image_data = b := by
  cases h : add_overlay_body w image_data with
  | ok b => exact ⟨b, by simp [add_overlay_checked, h], by simp [add_overlay, h]⟩
  | error e => exact ⟨image_data, by simp [add_overlay_checked, h], by simp [add_overlay, h]⟩

/-- C2: For every input that decodes as a valid raster image, the image
encoded in the output of `add_overlay` has exactly the same width and
height as the decoded input image, in every filesystem state. -/
theorem C2_canvas_size_preserved (w : World) (d : Bytes) (img : PilImage)
    (h : decodeImage d = some img) :
    ∃ img2, decodeImage (add_overlay w d) = some img2 ∧
      img2.width = img.width ∧ img2.height = img.height := by
  rcases add_overlay_cases w d with he | ⟨img', h', he⟩
  · exact ⟨img, by rw [he, h], rfl, rfl⟩
  · rw [h'] at h
    cases h
    exact ⟨full_composite w img, by rw [he]; rfl,
      full_composite_width w img, full_composite_height w img⟩

/-- Witness for C2 at a concrete 100 by 80 PNG input with all assets
available. -/
theorem C2_canvas_size_preserved_witness :
    ∃ img2, decodeImage (add_overlay worldAllOk pngInput) = some img2 ∧
      img2.width = 100 ∧ img2.height = 80 :=
  C2_canvas_size_preserved worldAllOk pngInput
    { width := 100, height := 80, mode := .RGB, baseId := 3, ops := [] } rfl

/-- C3: If the input bytes are not a valid decodable raster image,
`add_overlay` returns the original input bytes unchanged, in every
filesystem state. -/
theorem C3_undecodable_input_returned_unchanged (w : World) (d : Bytes)
    (h : decodeImage d = none) : add_overlay w d = d := by
  by_cases h2 : w.logoExists = true
  · exact add_overlay_of_body_error (add_overlay_body_decodeFail h2 h)
  · have h2' : w.logoExists = false := by
      cases hb : w.logoExists
      · rfl
      · exact absurd hb h2
    simp [add_overlay, add_overlay_body_noLogo d h2']

/-- Witness for C3 at concrete garbage bytes with all assets available. -/
theorem C3_undecodable_input_returned_unchanged_witness :
    add_overlay worldAllOk (Bytes.garbage 42) = Bytes.garbage 42 :=
  C3_undecodable_input_returned_unchanged worldAllOk (Bytes.garbage 42) rfl

lemma kind_captionRectOp (w : World) (img0 : PilImage) :
    (captionRectOp w img0).kind = OpKind.rectangle := rfl

lemma kind_captionTextOp (w : World) (img0 : PilImage) :
    (captionTextOp w img0).kind = OpKind.text := rfl

lemma kind_logoPasteOp (w : World) (img0 : PilImage) :
    (logoPasteOp w img0).kind = OpKind.paste := rfl

lemma textFonts_full_composite (w : World) (img : PilImage) :
    textFonts (full_composite w img) =
      textFonts img ++ [fontOf w (convertRGBA img)] := by
  unfold textFonts
  rw [full_composite_ops]
  simp [captionRectOp, captionTextOp, logoPasteOp, List.filterMap_append]

/-- C4 counterexample: with a valid 120 by 90 JPEG input and the logo
asset file absent, `add_overlay` returns the original input bytes: the
output carries no caption text operation and is not a composited PNG, so
composition does not continue with the remaining overlays. -/
theorem C4_counterexample_missing_logo_aborts_all :
    add_overlay worldNoLogo jpegInput = jpegInput ∧
    hasTextOp (add_overlay worldNoLogo jpegInput) = false ∧
    isPNGWithAlpha (add_overlay worldNoLogo jpegInput) = false := by
  refine ⟨rfl, rfl, rfl⟩

/-- C4 amended: if the logo asset file does not exist, or exists but
fails to open, `add_overlay` aborts the whole composition and returns the
original input bytes unchanged — no overlay (neither caption panel,
caption text, nor logo) is applied. -/
theorem C4_amended_missing_logo_returns_input (w : World) (d : Bytes)
    (h : w.logoExists = false ∨ w.logoOpens = false) :
    add_overlay w d = d := by
  rcases h with h | h
  · simp [add_overlay, add_overlay_body_noLogo d h]
  · by_cases h2 : w.logoExists = true
    · cases h1 : decodeImage d with
      | none => exact add_overlay_of_body_error (add_overlay_body_decodeFail h2 h1)
      | some img =>
        exact add_overlay_of_body_error (add_overlay_body_logoOpenFail h2 h1 h)
    · have h2' : w.logoExists = false := by
        cases hb : w.logoExists
        · rfl
        · exact absurd hb h2
      simp [add_overlay, add_overlay_body_noLogo d h2']

/-- Witness for the amended C4 at a concrete PNG input with the logo
absent. -/
theorem C4_amended_missing_logo_returns_input_witness :
    add_overlay worldNoLogo pngInput = pngInput :=
  C4_amended_missing_logo_returns_input worldNoLogo pngInput (Or.inl rfl)

/-- C5 counterexample: a valid 64 by 64 JPEG input together with a world
in which the logo file exists but fails to open: `add_overlay` returns
the original JPEG bytes, which are not PNG-encoded and carry no alpha
channel. -/
theorem C5_counterexample_jpeg_passthrough :
    decodeImage jpegSmall =
      some { width := 64, height := 64, mode := .RGB, baseId := 11, ops := [] } ∧
    add_overlay worldLogoUnreadable jpegSmall = jpegSmall ∧
    isPNGWithAlpha (add_overlay worldLogoUnreadable jpegSmall) = false := by
  refine ⟨rfl, rfl, rfl⟩

/-- C5 amended: for every valid input image, provided the logo asset
exists, opens, and has nonzero width (so that composition completes), the
output of `add_overlay` is PNG-encoded with an alpha channel regardless
of the input format; when composition aborts, the original input bytes
(possibly JPEG) are returned instead. -/
theorem C5_amended_png_alpha_output (w : World) (d : Bytes) (img : PilImage)
    (h1 : decodeImage d = some img) (h2 : w.logoExists = true)
    (h3 : w.logoOpens = true) (h4 : w.logoAsset.width ≠ 0) :
    isPNGWithAlpha (add_overlay w d) = true := by
  rw [add_overlay_of_body_ok (add_overlay_body_ok_of_success h1 h2 h3 h4)]
  simp [isPNGWithAlpha, savePNG, full_composite_mode]

/-- Witness for the amended C5 at a concrete JPEG input with all assets
available. -/
theorem C5_amended_png_alpha_output_witness :
    isPNGWithAlpha (add_overlay worldAllOk jpegSmall) = true :=
  C5_amended_png_alpha_output worldAllOk jpegSmall
    { width := 64, height := 64, mode := .RGB, baseId := 11, ops := [] }
    rfl rfl rfl (by decide)

/-- C6 counterexample: on a concrete successful run (120 by 90 JPEG, all
assets available) the recorded operation order is caption rectangle, then
caption text, then logo paste: there is no banner operation and the logo
is applied after the caption, not before it as the claim's order (banner,
logo, caption) asserts. -/
theorem C6_counterexample_logo_after_caption :
    opKinds (add_overlay worldAllOk jpegInput) =
      some [OpKind.rectangle, OpKind.text, OpKind.paste] ∧
    logoAppliedBeforeCaption (add_overlay worldAllOk jpegInput) = false := by
  refine ⟨rfl, rfl⟩

/-- C6 amended: when composition completes, the overlay operations are
applied to the base image in the fixed order: caption background panel
(rectangle), then caption text, then logo paste; there is no banner
step. -/
theorem C6_amended_fixed_order_rect_text_paste (w : World) (d : Bytes)
    (img : PilImage) (h1 : decodeImage d = some img) (h2 : w.logoExists = true)
    (h3 : w.logoOpens = true) (h4 : w.logoAsset.width ≠ 0) :
    ∃ img2, decodeImage (add_overlay w d) = some img2 ∧
      img2.ops.map DrawOp.kind =
        img.ops.map DrawOp.kind ++ [OpKind.rectangle, OpKind.text, OpKind.paste] := by
  rw [add_overlay_of_body_ok (add_overlay_body_ok_of_success h1 h2 h3 h4)]
  refine ⟨full_composite w img, rfl, ?_⟩
  rw [full_composite_ops]
  simp [kind_captionRectOp, kind_captionTextOp, kind_logoPasteOp]

/-- Witness for the amended C6 at a concrete PNG input with all assets
available. -/
theorem C6_amended_fixed_order_rect_text_paste_witness :
    ∃ img2, decodeImage (add_overlay worldAllOk pngInput) = some img2 ∧
      img2.ops.map DrawOp.kind =
        [OpKind.rectangle, OpKind.text, OpKind.paste] := by
  obtain ⟨img2, h, hops⟩ := C6_amended_fixed_order_rect_text_paste worldAllOk pngInput
    { width := 100, height := 80, mode := .RGB, baseId := 3, ops := [] }
    rfl rfl rfl (by decide)
  exact ⟨img2, h, by simpa using hops⟩

/-- C7: if the truetype font cannot be loaded, `add_overlay` falls back
to the built-in default font: the caption text is still rendered (with
`FontChoice.default`) and the function does not raise. -/
theorem C7_font_fallback_caption_rendered (w : World) (d : Bytes)
    (img : PilImage) (h1 : decodeImage d = some img) (h2 : w.logoExists = true)
    (h3 : w.logoOpens = true) (h4 : w.logoAsset.width ≠ 0)
    (h5 : w.fontLoads = false) :
    (add_overlay_checked w d).isOk = true ∧
    ∃ img2, decodeImage (add_overlay w d) = some img2 ∧
      textFonts img2 = textFonts img ++ [FontChoice.default] := by
  constructor
  · cases h : add_overlay_body w d <;> simp [add_overlay_checked, h, Except.isOk, Except.toBool]
  · rw [add_overlay_of_body_ok (add_overlay_body_ok_of_success h1 h2 h3 h4)]
    refine ⟨full_composite w img, rfl, ?_⟩
    rw [textFonts_full_composite]
    simp [fontOf, h5]

/-- Witness for C7 at a concrete PNG input with the font unavailable. -/
theorem C7_font_fallback_caption_rendered_witness :
    (add_overlay_checked worldNoFont pngInput).isOk = true ∧
    ∃ img2, decodeImage (add_overlay worldNoFont pngInput) = some img2 ∧
      textFonts img2 = [FontChoice.default] := by
  obtain ⟨h, img2, hdec, hfonts⟩ := C7_font_fallback_caption_rendered worldNoFont pngInput
    { width := 100, height := 80, mode := .RGB, baseId := 3, ops := [] }
    rfl rfl rfl (by decide) rfl
  exact ⟨h, img2, hdec, by simpa [textFonts] using hfonts⟩

lemma full_composite_explicit (w : World) (img : PilImage) :
    full_composite w img =
      { convertRGBA img with
        ops := img.ops ++ [captionRectOp w (convertRGBA img),
          captionTextOp w (convertRGBA img), logoPasteOp w (convertRGBA img)] } := by
  simp [full_composite, applyOp, convertRGBA]

/-- C9: the proxy layer's rewriting of an upstream JSON response
(`handle_generate`, main.py lines 150-169) refines the spec: exactly the
first part of `candidates[0].content.parts` carrying `inlineData` is
rewritten in place — its `data` replaced by the base64 encoding of the
`add_overlay` output and its `mimeType` set to `"image/png"` — and every
other part, candidate and field of the JSON structure is relayed
unmodified (and the whole response is relayed untouched when there is no
such part). -/
theorem C9_proxy_rewrites_first_inline_part (enc : Bytes → String)
    (dec : String → Bytes) (w : World) (resp : ApiResponse) :
    ProxyRewriteSpec enc dec w resp (handle_generate_model enc dec w resp) := by
  unfold ProxyRewriteSpec handle_generate_model
  obtain ⟨cands, o⟩ := resp
  cases cands with
  | nil => exact ⟨rfl, rfl⟩
  | cons c0 rest =>
    obtain ⟨oct, co⟩ := c0
    cases oct with
    | none => exact ⟨rfl, rfl⟩
    | some ct =>
      exact ⟨rfl, rewriteFirstInline enc dec w ct.parts,
        rewriteFirstInline_spec enc dec w ct.parts, rfl⟩

/-- C10: all-or-nothing composition: for every input byte sequence and
every filesystem state, `add_overlay` returns either exactly the original
input bytes, or the PNG encoding of the fully composited image — the
RGBA-converted input with the caption panel rectangle, the caption text
and the logo paste all applied; a partially composited image is never
returned. -/
theorem C10_all_or_nothing (w : World) (d : Bytes) :
    add_overlay w d = d ∨
    ∃ img, decodeImage d = some img ∧
      ∃ o1 o2 o3 : DrawOp, o1.kind = OpKind.rectangle ∧ o2.kind = OpKind.text ∧
        o3.kind = OpKind.paste ∧
        add_overlay w d =
          savePNG { convertRGBA img with ops := img.ops ++ [o1, o2, o3] } := by
  rcases add_overlay_cases w d with h | ⟨img, h1, h2⟩
  · exact Or.inl h
  · refine Or.inr ⟨img, h1, captionRectOp w (convertRGBA img),
      captionTextOp w (convertRGBA img), logoPasteOp w (convertRGBA img),
      kind_captionRectOp w (convertRGBA img), kind_captionTextOp w (convertRGBA img),
      kind_logoPasteOp w (convertRGBA img), ?_⟩
    rw [h2, full_composite_explicit]
